import Mathlib

/-!
Shallow embedding of the `myassistant` repository's memory subsystem
(`src/memory.py`, class `VectorMemory`) and of the conversation-history
trimming in `src/assistant.py` (`ShellAssistant._trim_history`).

Conventions of the embedding:
* Python `dict` values are association lists with Python's last-writer-wins
  update semantics (`PyDict`); `\x7b**a, **b\x7d` is `PyDict.update a b`.
* A ChromaDB collection is a record of parallel lists (`ids`, `embeddings`,
  `documents`, `metadatas`), which is exactly the shape `collection.get()`
  exposes to the Python code; the client is a list of named collections.
* `json.loads` is modelled by an executable recursive-descent decoder
  (`json_loads`) over a `PyVal` type of Python/JSON values.  It covers the
  JSON fragment relevant here (strings with the common escapes, integers,
  booleans, null, arrays, objects); on floating-point literals and `\u`
  escapes it conservatively fails, and no statement below depends on those.
* External effects are parameters: the embedding provider is an
  `Option`-valued function plus the `DASHSCOPE_API_KEY` environment value,
  `uuid.uuid4()` and `datetime.now().isoformat()` are explicit arguments,
  and ChromaDB's nearest-neighbour search is a function-valued parameter
  (its ranking algorithm lives outside the repository).
* Exceptions are `Except` values; where the Python method mutates
  `self`, the function returns the new state, and on the error path it
  returns the state unchanged exactly when the Python code raises before
  its first mutation.
-/

/-! ### Python dictionaries -/

/-- A Python `dict` with `String` keys, as an association list in insertion
order.  All dictionaries built by the embedded code have distinct keys, as
real Python dictionaries do. -/
abbrev PyDict (α : Type) : Type := List (String × α)

/-- Lookup, first matching key (the only binding, when keys are distinct). -/
def PyDict.get? {α : Type} : PyDict α → String → Option α
  | [], _ => none
  | (k', v) :: rest, k => if k' = k then some v else PyDict.get? rest k

/-- Python `d.get(k, dflt)`. -/
def PyDict.getD {α : Type} (d : PyDict α) (k : String) (dflt : α) : α :=
  (d.get? k).getD dflt

/-- Python `d[k] = v`: replace the value in place if the key exists,
otherwise append the new binding. -/
def PyDict.setKey {α : Type} : PyDict α → String → α → PyDict α
  | [], k, v => [(k, v)]
  | (k', v') :: rest, k, v =>
    if k' = k then (k, v) :: rest else (k', v') :: PyDict.setKey rest k v

/-- Python `\x7b**base, **upd\x7d`: start from `base` and write every binding
of `upd` over it, later writers winning. -/
def PyDict.update {α : Type} (base upd : PyDict α) : PyDict α :=
  upd.foldl (fun d kv => d.setKey kv.1 kv.2) base

/-- The keys of a dictionary. -/
def PyDict.keys {α : Type} (d : PyDict α) : List String := d.map Prod.fst

/-- The association list represents a real Python dictionary: distinct keys. -/
def PyDict.NodupKeys {α : Type} (d : PyDict α) : Prop := d.keys.Nodup

/-! ### Python/JSON values -/

/-- Python values as they occur in this program: strings, integers,
booleans, `None`, lists and string-keyed dictionaries (also the image of
`json.loads`). -/
inductive PyVal where
  | str : String → PyVal
  | int : Int → PyVal
  | bool : Bool → PyVal
  | null : PyVal
  | list : List PyVal → PyVal
  | obj : List (String × PyVal) → PyVal

/-! ### Python string comparison

Python compares strings lexicographically by Unicode code point.  The
`String` order of the Lean core library is not kernel-reducible, so the
comparison is embedded directly on the code-point lists. -/

/-- Code-point lexicographic `≤` on character lists, Python's string order. -/
def charListLe : List Char → List Char → Bool
  | [], _ => true
  | _ :: _, [] => false
  | a :: as, b :: bs =>
    if a.toNat < b.toNat then true
    else if a.toNat = b.toNat then charListLe as bs
    else false

/-- Python `a <= b` on strings. -/
def pyStrLe (a b : String) : Bool := charListLe a.data b.data

theorem charListLe_total : ∀ a b, charListLe a b = true ∨ charListLe b a = true := by
  intro a
  induction a with
  | nil => intro b; left; cases b <;> rfl
  | cons x xs ih =>
    intro b
    cases b with
    | nil => right; rfl
    | cons y ys =>
      rcases Nat.lt_trichotomy x.toNat y.toNat with h | h | h
      · left; simp [charListLe, h]
      · rcases ih ys with h2 | h2
        · left; simp [charListLe, h, h2]
        · right; simp [charListLe, h.symm, h2]
      · right; simp [charListLe, h]

theorem charListLe_trans :
    ∀ a b c, charListLe a b = true → charListLe b c = true → charListLe a c = true := by
  intro a
  induction a with
  | nil => intro b c _ _; cases c <;> simp [charListLe]
  | cons x xs ih =>
    intro b c hab hbc
    cases b with
    | nil => simp [charListLe] at hab
    | cons y ys =>
      cases c with
      | nil => simp [charListLe] at hbc
      | cons z zs =>
        simp only [charListLe] at hab hbc ⊢
        split at hab
        · next h1 =>
          split at hbc
          · next h2 => simp [Nat.lt_trans h1 h2]
          · split at hbc
            · next h2 => simp [h2 ▸ h1]
            · exact absurd hbc (by simp)
        · split at hab
          · next h1 h2 =>
            split at hbc
            · next h3 => simp [h2 ▸ h3]
            · split at hbc
              · next h3 => simp [h2, h3, ih _ _ hab hbc]
              · exact absurd hbc (by simp)
          · exact absurd hab (by simp)

/-! ### The `json.loads` model

Recursive-descent decoder over the character list, with a fuel argument
for termination; `json_loads` supplies ample fuel, and every concrete
evaluation below stays far below it. -/

/-- JSON whitespace. -/
def jsonWs (c : Char) : Bool := c = ' ' || c = '\n' || c = '\t' || c = '\r'

/-- Skip leading whitespace. -/
def dropWs : List Char → List Char
  | [] => []
  | c :: cs => if jsonWs c then dropWs cs else c :: cs

/-- The single-character JSON string escapes accepted by `json.loads`
(`\u` escapes are not modelled and make the decoder fail). -/
def jsonEscape (c : Char) : Option Char :=
  if c = 'n' then some '\n'
  else if c = 't' then some '\t'
  else if c = 'r' then some '\r'
  else if c = '"' then some '"'
  else if c = '\\' then some '\\'
  else if c = '/' then some '/'
  else if c = 'b' then some (Char.ofNat 0x08)
  else if c = 'f' then some (Char.ofNat 0x0c)
  else none

/-- Parse the body of a JSON string after the opening quote, returning the
decoded characters and the rest of the input. -/
def parseStrBody : Nat → List Char → Option (List Char × List Char)
  | 0, _ => none
  | _, [] => none
  | fuel + 1, c :: cs =>
    if c = '"' then some ([], cs)
    else if c = '\\' then
      match cs with
      | [] => none
      | e :: cs2 =>
        match jsonEscape e with
        | none => none
        | some ch =>
          match parseStrBody fuel cs2 with
          | none => none
          | some (body, rest) => some (ch :: body, rest)
    else
      match parseStrBody fuel cs with
      | none => none
      | some (body, rest) => some (c :: body, rest)

/-- Consume a digit run left-to-right, accumulating its decimal value. -/
def parseNatAcc : Nat → Nat → List Char → Nat × List Char
  | 0, acc, rest => (acc, rest)
  | fuel + 1, acc, input =>
    match input with
    | c :: cs =>
      if c.isDigit then parseNatAcc fuel (acc * 10 + (c.toNat - '0'.toNat)) cs
      else (acc, input)
    | [] => (acc, [])

/-- Parse a non-empty digit run into a natural number. -/
def parseNum (fuel : Nat) : List Char → Option (Nat × List Char)
  | c :: cs =>
    if c.isDigit then some (parseNatAcc fuel (c.toNat - '0'.toNat) cs) else none
  | [] => none

/-- The three JSON sub-parsers (value, object pairs, array elements),
built together by structural recursion on the fuel so that every
application reduces definitionally.  `jsonParsers fuel` returns the
value parser, the parser for one-or-more `"key": value` pairs up to the
closing brace, and the parser for one-or-more array elements up to the
closing bracket. -/
def jsonParsers : Nat →
    (List Char → Option (PyVal × List Char)) ×
    (List Char → Option (List (String × PyVal) × List Char)) ×
    (List Char → Option (List PyVal × List Char))
  | 0 => (fun _ => none, fun _ => none, fun _ => none)
  | fuel + 1 =>
    let pVal := (jsonParsers fuel).1
    let pObjPairs := (jsonParsers fuel).2.1
    let pArrElems := (jsonParsers fuel).2.2
    ( fun input =>
        match input with
        | [] => none
        | c :: cs =>
          if c = '"' then
            match parseStrBody fuel cs with
            | none => none
            | some (body, rest) => some (.str (String.mk body), rest)
          else if c = '\x7b' then
            match dropWs cs with
            | '\x7d' :: rest => some (.obj [], rest)
            | rest =>
              match pObjPairs rest with
              | none => none
              | some (pairs, rest2) => some (.obj pairs, rest2)
          else if c = '[' then
            match dropWs cs with
            | ']' :: rest => some (.list [], rest)
            | rest =>
              match pArrElems rest with
              | none => none
              | some (elems, rest2) => some (.list elems, rest2)
          else if c = 't' then
            match input with
            | 't' :: 'r' :: 'u' :: 'e' :: rest => some (.bool true, rest)
            | _ => none
          else if c = 'f' then
            match input with
            | 'f' :: 'a' :: 'l' :: 's' :: 'e' :: rest => some (.bool false, rest)
            | _ => none
          else if c = 'n' then
            match input with
            | 'n' :: 'u' :: 'l' :: 'l' :: rest => some (.null, rest)
            | _ => none
          else if c = '-' then
            match parseNum fuel cs with
            | some (n, rest) => some (.int (-(n : Int)), rest)
            | none => none
          else
            match parseNum fuel input with
            | some (n, rest) => some (.int (n : Int), rest)
            | none => none,
      fun input =>
        match input with
        | '"' :: cs =>
          match parseStrBody fuel cs with
          | none => none
          | some (key, afterKey) =>
            match dropWs afterKey with
            | ':' :: afterColon =>
              match pVal (dropWs afterColon) with
              | none => none
              | some (v, afterVal) =>
                match dropWs afterVal with
                | ',' :: afterComma =>
                  match pObjPairs (dropWs afterComma) with
                  | none => none
                  | some (pairs, rest) => some ((String.mk key, v) :: pairs, rest)
                | '\x7d' :: rest => some ([(String.mk key, v)], rest)
                | _ => none
            | _ => none
        | _ => none,
      fun input =>
        match pVal input with
        | none => none
        | some (v, afterVal) =>
          match dropWs afterVal with
          | ',' :: afterComma =>
            match pArrElems (dropWs afterComma) with
            | none => none
            | some (elems, rest) => some (v :: elems, rest)
          | ']' :: rest => some ([v], rest)
          | _ => none )

/-- Parse a single JSON value. -/
def parseVal (fuel : Nat) : List Char → Option (PyVal × List Char) :=
  (jsonParsers fuel).1

/-- The model of `json.loads`: decode one JSON value, requiring only
whitespace around it. -/
def json_loads (s : String) : Option PyVal :=
  match parseVal (s.data.length + 16) (dropWs s.data) with
  | none => none
  | some (v, rest) => if dropWs rest = [] then some v else none

example : json_loads "\x7b\"k\":\"v\"\x7d" = some (.obj [("k", .str "v")]) := by rfl
example : json_loads "\x7bbad" = none := by rfl
example : json_loads "\"hello\"" = some (.str "hello") := by rfl
example : json_loads " \x7b \"a\" : 12 , \"b\" : [true, null] \x7d " =
    some (.obj [("a", .int 12), ("b", .list [.bool true, .null])]) := by rfl

/-! ### The ChromaDB collection and client, as used by `memory.py`

A collection is the record shape that `collection.get()` exposes: parallel
lists of ids, embeddings, documents and metadatas in insertion order,
plus the collection name and its collection-level metadata (the
`hnsw:space` setting).  The client is the list of collections of the
persistent store. -/

/-- Record metadata: a Python dict with string values (the only value type
this program stores). -/
abbrev Metadata : Type := PyDict String

structure Collection where
  name : String
  colMeta : PyDict String
  ids : List String
  embeddings : List (List ℚ)
  documents : List PyVal
  metadatas : List Metadata

/-- The collection-level metadata `memory.py` always passes:
`\x7b"hnsw:space": "cosine"\x7d`. -/
def cosineMeta : PyDict String := [("hnsw:space", "cosine")]

/-- A freshly created collection with cosine metric. -/
def emptyCollection (n : String) : Collection :=
  ⟨n, cosineMeta, [], [], [], []⟩

/-- The persistent client: its collections, in creation order. -/
abbrev Client : Type := List Collection

/-- `client.delete_collection(name)`: remove the collection of that name.
(When no such collection exists ChromaDB raises; the only call site that
can hit that case wraps the call in `try/except: pass`, so the net effect
there is also just this removal.) -/
def deleteCollection (db : Client) (n : String) : Client :=
  db.filter (fun c => !(c.name == n))

/-- `client.create_collection(name, metadata)`: append a fresh empty
collection.  (Raises if the name exists; every call site runs it right
after deleting that name.) -/
def createCollection (db : Client) (n : String) (meta : PyDict String) :
    Client × Collection :=
  (db ++ [⟨n, meta, [], [], [], []⟩], ⟨n, meta, [], [], [], []⟩)

/-- `client.get_or_create_collection(name, metadata)`: return the existing
collection of that name, or create an empty one. -/
def getOrCreateCollection (db : Client) (n : String) (meta : PyDict String) :
    Client × Collection :=
  match db.find? (fun c => c.name == n) with
  | some c => (db, c)
  | none => createCollection db n meta

/-- `collection.add` with a single record (the form used by
`store_memory` and `store_code_memory`). -/
def Collection.addRecord (c : Collection) (embedding : List ℚ) (document : PyVal)
    (meta : Metadata) (id : String) : Collection :=
  { c with
    ids := c.ids ++ [id]
    embeddings := c.embeddings ++ [embedding]
    documents := c.documents ++ [document]
    metadatas := c.metadatas ++ [meta] }

/-! ### `VectorMemory._get_embedding` -/

/-- `VectorMemory._get_embedding`.  `api_key` is `os.getenv("DASHSCOPE_API_KEY")`
(`none` when unset); `embedFn` is the OpenRouter embeddings endpoint, `none`
when the upstream call fails.  Python's `if not api_key` is true for both a
missing and an empty value.  Mirrors `src/memory.py` lines 74-98. -/
def get_embedding (api_key : Option String)
    (embedFn : String → Option (List ℚ)) (text : String) :
    Except String (List ℚ) :=
  match api_key with
  | none => .error "DASHSCOPE_API_KEY 未设置，请检查环境变量"
  | some k =>
    if k = "" then .error "DASHSCOPE_API_KEY 未设置，请检查环境变量"
    else
      match embedFn text with
      | some v => .ok v
      | none => .error "OpenRouter embedding failed"

/-! ### `VectorMemory._migrate_if_needed` -/

/-- Python `s.startswith(pre)`, directly on the code-point lists (the
core `String.startsWith` is not kernel-reducible). -/
def startsWithChars : List Char → List Char → Bool
  | _, [] => true
  | [], _ :: _ => false
  | c :: cs, p :: ps => c = p && startsWithChars cs ps

/-- Python `s.startswith(pre)` on strings. -/
def pyStartsWith (s pre : String) : Bool := startsWithChars s.data pre.data

/-- One step of the migration loop body: `content = json.loads(doc)`.
`json.loads` applied to a non-string raises `TypeError`, modelled as
`none`. -/
def decode_one : PyVal → Option PyVal
  | .str s => json_loads s
  | _ => none

/-- The migration loop over `docs["documents"]`: decode every document, or
fail at the first undecodable one (the Python loop raises there, before
any write). -/
def decode_documents : List PyVal → Option (List PyVal)
  | [] => some []
  | d :: ds =>
    match decode_one d with
    | none => none
    | some v =>
      match decode_documents ds with
      | none => none
      | some vs => some (v :: vs)

/-- ChromaDB validates every document passed to `collection.add` as a
string (its `Document` type is `str`): the texts of the documents, or
`none` when some document is not a string. -/
def allStrings : List PyVal → Option (List String)
  | [] => some []
  | .str s :: ds =>
    match allStrings ds with
    | none => none
    | some texts => some (s :: texts)
  | _ => none

/-- `collection.add(documents=..., metadatas=..., ids=...)` with no
embedding vectors, as the migration's re-add calls it: ChromaDB validates
that every document is a string — otherwise the call raises `ValueError`
and inserts nothing — and on success derives the embedding of each record
from its document text (`autoEmbed` stands for the store's embedding
function). -/
def addDocuments (autoEmbed : String → List ℚ) (c : Collection)
    (docs : List PyVal) (metas : List Metadata) (ids : List String) :
    Collection × Except String Unit :=
  match allStrings docs with
  | none => (c, .error "ValueError: expected string documents")
  | some texts =>
    ({ c with
        ids := c.ids ++ ids
        embeddings := c.embeddings ++ texts.map autoEmbed
        documents := c.documents ++ docs
        metadatas := c.metadatas ++ metas }, .ok ())

/-- `VectorMemory._migrate_if_needed` (`src/memory.py` lines 39-72), acting
on the owned collection; the result also carries whether an exception
escaped.  The legacy check is: the collection is non-empty, its first
document is a string, and that string starts with `"\x7b"`.  On migration the
collection is deleted and re-created with the same name and cosine metric,
and the decoded documents are re-added under the original ids and
metadatas by `collection.add` — which validates them as strings, so when a
decoded document is a JSON object the add raises and the state left behind
is the freshly created empty collection.  The decoding loop runs to
completion before the delete, so a decode failure leaves the collection
untouched. -/
def migrate_if_needed (autoEmbed : String → List ℚ) (c : Collection) :
    Collection × Except String Unit :=
  if c.documents.isEmpty then (c, .ok ())
  else
    match c.documents.head? with
    | some (.str s) =>
      if pyStartsWith s "\x7b" then
        match decode_documents c.documents with
        | none => (c, .error "json.JSONDecodeError")
        | some new_docs =>
          addDocuments autoEmbed (emptyCollection c.name) new_docs
            c.metadatas c.ids
      else (c, .ok ())
    | _ => (c, .ok ())

/-! ### `VectorMemory.__init__` -/

/-- `VectorMemory.__init__` (`src/memory.py` lines 12-37) after the client
is opened: it always attempts `delete_collection(collection_name)` with the
exception swallowed, then `get_or_create_collection` with cosine metric,
then `_migrate_if_needed`.  Returns the updated client, the collection the
instance owns, and the migration outcome. -/
def vector_memory_init (autoEmbed : String → List ℚ) (db : Client)
    (collection_name : String) : Client × Collection × Except String Unit :=
  let db1 := deleteCollection db collection_name
  let (db2, col) := getOrCreateCollection db1 collection_name cosineMeta
  let (col2, r) := migrate_if_needed autoEmbed col
  (db2.map (fun x => if x.name == col2.name then col2 else x), col2, r)

/-! ### `VectorMemory.store_memory` and `store_code_memory` -/

/-- `VectorMemory.store_memory` (`src/memory.py` lines 100-126).
`memory_id` is the generated `uuid.uuid4()` and `now` the generated
`datetime.now().isoformat()`.  The metadata is the stamped fields updated
with the caller's dict (`\x7b..., **(metadata or \x7b\x7d)\x7d`); the embedding is
fetched after that and the record is added only when it succeeds. -/
def store_memory (api_key : Option String) (embedFn : String → Option (List ℚ))
    (memory_id now : String) (c : Collection) (role content : String)
    (metadata : Option Metadata) : Collection × Except String String :=
  let meta := PyDict.update
    [("role", role), ("timestamp", now), ("type", "text")]
    (metadata.getD [])
  match get_embedding api_key embedFn content with
  | .error e => (c, .error e)
  | .ok embedding =>
    (c.addRecord embedding (.str content) meta memory_id, .ok memory_id)

/-- The provenance marker `store_code_memory` appends to the content:
`f"\n\n# [\x7blanguage.upper()\x7d] CODE MEMORY: \x7bfile_path\x7d\n"`.  (Python's
`str.upper`, like `String.toUpper`, uppercases the ASCII letters used in
the language tags of this program.) -/
def code_marker (file_path language : String) : String :=
  "\n\n# [" ++ language.toUpper ++ "] CODE MEMORY: " ++ file_path ++ "\n"

/-- `VectorMemory.store_code_memory` (`src/memory.py` lines 128-165): the
document is the content followed by the provenance marker, the stamped
metadata additionally carries `type="code"`, `file_path` and `language`,
and the caller's dict is written over the stamped fields. -/
def store_code_memory (api_key : Option String)
    (embedFn : String → Option (List ℚ)) (memory_id now : String)
    (c : Collection) (role content file_path language : String)
    (metadata : Option Metadata) : Collection × Except String String :=
  let full_content := content ++ code_marker file_path language
  let meta := PyDict.update
    [("role", role), ("timestamp", now), ("type", "code"),
     ("file_path", file_path), ("language", language)]
    (metadata.getD [])
  match get_embedding api_key embedFn full_content with
  | .error e => (c, .error e)
  | .ok embedding =>
    (c.addRecord embedding (.str full_content) meta memory_id, .ok memory_id)

/-! ### `VectorMemory.search_relevant_memories` -/

/-- The shape of `collection.query(...)`'s reply: one inner list per query
embedding (this program always passes exactly one). -/
structure QueryReply where
  documents : List (List PyVal)
  metadatas : List (List Metadata)
  distances : List (List ℚ)

/-- One formatted search result (`src/memory.py` lines 196-205). -/
structure MemoryHit where
  content : PyVal
  metadata : Metadata
  distance : ℚ
  relevance_score : ℚ

/-- The `where` clause built from the optional filters (`src/memory.py`
lines 179-183).  Python's `if filter_role:` is false for `None` and for
the empty string. -/
def build_where (filter_role filter_type : Option String) : PyDict String :=
  let w : PyDict String := []
  let w :=
    match filter_role with
    | some r => if r = "" then w else w.setKey "role" r
    | none => w
  match filter_type with
  | some t => if t = "" then w else w.setKey "type" t
  | none => w

/-- The result-formatting loop (`src/memory.py` lines 193-207): pair the
first query's documents with its metadatas and distances and attach
`relevance_score = 1 - distance`. -/
def formatHits : List PyVal → List Metadata → List ℚ → List MemoryHit
  | d :: ds, m :: ms, x :: xs => ⟨d, m, x, 1 - x⟩ :: formatHits ds ms xs
  | _, _, _ => []

/-- `VectorMemory.search_relevant_memories` (`src/memory.py` lines
167-207).  `queryFn` is ChromaDB's nearest-neighbour search, a capability
of the external store: it receives the collection, the query embedding,
`n_results` and the `where` clause. -/
def search_relevant_memories (api_key : Option String)
    (embedFn : String → Option (List ℚ))
    (queryFn : Collection → List ℚ → Nat → PyDict String → QueryReply)
    (c : Collection) (query : String) (top_k : Nat)
    (filter_role filter_type : Option String) :
    Except String (List MemoryHit) :=
  match get_embedding api_key embedFn query with
  | .error e => .error e
  | .ok query_embedding =>
    let results := queryFn c query_embedding top_k
      (build_where filter_role filter_type)
    match results.documents with
    | [] => .ok []
    | docs0 :: _ =>
      .ok (formatHits docs0 (results.metadatas.headD [])
        (results.distances.headD []))

/-! ### `VectorMemory.get_recent_memories` -/

/-- One entry of the list built by `get_recent_memories` (`src/memory.py`
lines 230-236). -/
structure RecentHit where
  content : PyVal
  metadata : Metadata
  timestamp : String

/-- The filter of the `get_recent_memories` loop (`src/memory.py` lines
224-227): a record is kept when each active filter equals the
corresponding metadata value (a missing key is `None` and never equals an
active filter).  Python's `if filter_role:` is false for `None` and the
empty string. -/
def keepEntry (filter_role filter_type : Option String) (meta : Metadata) :
    Bool :=
  (match filter_role with
   | none => true
   | some r => if r = "" then true else meta.get? "role" == some r) &&
  (match filter_type with
   | none => true
   | some t => if t = "" then true else meta.get? "type" == some t)

/-- The filtered entry list of `get_recent_memories`, in insertion order:
content, metadata and `meta.get("timestamp", "")`. -/
def recent_entries (c : Collection) (filter_role filter_type : Option String) :
    List RecentHit :=
  (c.documents.zip c.metadatas).filterMap (fun dm =>
    if keepEntry filter_role filter_type dm.2 then
      some ⟨dm.1, dm.2, dm.2.getD "timestamp" ""⟩
    else none)

/-- Newest-first order on entries: the timestamp of the second is at most
the timestamp of the first, in Python's string order. -/
def recentGe (x y : RecentHit) : Prop :=
  pyStrLe y.timestamp x.timestamp = true

instance : DecidableRel recentGe := fun _ _ =>
  inferInstanceAs (Decidable (_ = true))

instance : IsTotal RecentHit recentGe :=
  ⟨fun x y => charListLe_total y.timestamp.data x.timestamp.data⟩

instance : IsTrans RecentHit recentGe :=
  ⟨fun _ _ _ h1 h2 => charListLe_trans _ _ _ h2 h1⟩

/-- `VectorMemory.get_recent_memories` (`src/memory.py` lines 209-241):
full scan, client-side filter, stable sort by timestamp newest first
(Python's `sorted(..., reverse=True)` is a stable sort, and a stable sort
is a function of the key order alone, so the stable `insertionSort` below
computes the same list), then truncate to `limit`. -/
def get_recent_memories (c : Collection) (limit : Nat)
    (filter_role filter_type : Option String) : List RecentHit :=
  (List.insertionSort recentGe (recent_entries c filter_role filter_type)).take
    limit

/-! ### `VectorMemory.clear_memory` and `get_memory_stats` -/

/-- `VectorMemory.clear_memory` (`src/memory.py` lines 243-249): delete the
owned collection and re-create it, same name, cosine metric. -/
def clear_memory (db : Client) (c : Collection) : Client × Collection :=
  let db1 := deleteCollection db c.name
  createCollection db1 c.name cosineMeta

/-- The stats dictionary of `get_memory_stats` (`src/memory.py` lines
251-269). -/
structure MemoryStats where
  total_memories : Nat
  memories_by_role : PyDict Nat
  memories_by_type : PyDict Nat

/-- Count occurrences the way the stats loop does:
`d[key] = d.get(key, 0) + 1` over the metadata values of `field`, with
default `"unknown"`. -/
def countBy (metas : List Metadata) (field : String) : PyDict Nat :=
  metas.foldl (fun d m =>
    d.setKey (m.getD field "unknown") (d.getD (m.getD field "unknown") 0 + 1)) []

/-- `VectorMemory.get_memory_stats`: total count and the per-role /
per-type histograms of the full scan. -/
def get_memory_stats (c : Collection) : MemoryStats :=
  ⟨c.documents.length, countBy c.metadatas "role", countBy c.metadatas "type"⟩

/-! ### `ShellAssistant._trim_history` -/

/-- Python's `l[-k:]` for a non-negative `k`: the last `k` elements —
except that `k = 0` denotes the slice `l[0:]`, the whole list. -/
def pySliceLast {α : Type} (k : Nat) (l : List α) : List α :=
  if k = 0 then l else l.drop (l.length - k)

/-- `ShellAssistant._trim_history` (`src/assistant.py` lines 228-231):
`if len(history) > max_history * 2: history = history[-max_history * 2:]`. -/
def trim_history {α : Type} (max_history : Nat) (history : List α) : List α :=
  if history.length > max_history * 2 then
    pySliceLast (max_history * 2) history
  else history

/-! ### Dictionary lemmas -/

theorem PyDict.get?_setKey_self {α : Type} (d : PyDict α) (k : String) (v : α) :
    (d.setKey k v).get? k = some v := by
  induction d with
  | nil => simp [PyDict.setKey, PyDict.get?]
  | cons kv rest ih =>
    by_cases h : kv.1 = k
    · simp [PyDict.setKey, PyDict.get?, h]
    · simp [PyDict.setKey, PyDict.get?, h, ih]

theorem PyDict.get?_setKey_ne {α : Type} (d : PyDict α) {k k' : String} (v : α)
    (h : k' ≠ k) : (d.setKey k' v).get? k = d.get? k := by
  induction d with
  | nil => simp [PyDict.setKey, PyDict.get?, h]
  | cons kv rest ih =>
    by_cases h2 : kv.1 = k'
    · simp [PyDict.setKey, PyDict.get?, h2, h]
    · simp [PyDict.setKey, PyDict.get?, h2, ih]

theorem PyDict.get?_eq_none_of_not_mem_keys {α : Type} {d : PyDict α}
    {k : String} (h : k ∉ d.keys) : d.get? k = none := by
  induction d with
  | nil => rfl
  | cons kv rest ih =>
    simp only [PyDict.keys, List.map_cons, List.mem_cons, not_or] at h
    have h1 : kv.1 ≠ k := fun e => h.1 e.symm
    have h2 : PyDict.get? rest k = none := ih (by simpa [PyDict.keys] using h.2)
    simp [PyDict.get?, h1, h2]

theorem PyDict.update_get?_of_none {α : Type} {upd : PyDict α} {k : String}
    (base : PyDict α) (h : upd.get? k = none) :
    (base.update upd).get? k = base.get? k := by
  induction upd generalizing base with
  | nil => rfl
  | cons kv rest ih =>
    have hne : kv.1 ≠ k := by
      intro he
      simp [PyDict.get?, he] at h
    have hrest : PyDict.get? rest k = none := by
      simpa [PyDict.get?, hne] using h
    calc (base.update (kv :: rest)).get? k
        = ((base.setKey kv.1 kv.2).update rest).get? k := rfl
      _ = (base.setKey kv.1 kv.2).get? k := ih _ hrest
      _ = base.get? k := PyDict.get?_setKey_ne base kv.2 hne

theorem PyDict.update_get?_of_mem {α : Type} {upd : PyDict α} {k : String}
    {v : α} (base : PyDict α) (hnd : upd.NodupKeys) (h : upd.get? k = some v) :
    (base.update upd).get? k = some v := by
  induction upd generalizing base with
  | nil => simp [PyDict.get?] at h
  | cons kv rest ih =>
    have hnd2 : PyDict.NodupKeys rest ∧ kv.1 ∉ PyDict.keys rest := by
      have := hnd
      simp only [PyDict.NodupKeys, PyDict.keys, List.map_cons,
        List.nodup_cons] at this
      exact ⟨this.2, this.1⟩
    by_cases he : kv.1 = k
    · have hv : kv.2 = v := by simpa [PyDict.get?, he] using h
      have hrest : PyDict.get? rest k = none :=
        PyDict.get?_eq_none_of_not_mem_keys (he ▸ hnd2.2)
      calc (base.update (kv :: rest)).get? k
          = ((base.setKey kv.1 kv.2).update rest).get? k := rfl
        _ = (base.setKey kv.1 kv.2).get? k :=
            PyDict.update_get?_of_none _ hrest
        _ = some v := by rw [he, PyDict.get?_setKey_self, hv]
    · have hrest : PyDict.get? rest k = some v := by
        simpa [PyDict.get?, he] using h
      exact ih _ hnd2.1 hrest

/-! ### Decoding and formatting lemmas -/

theorem decode_documents_none_of_mem {ds : List PyVal} {d : PyVal}
    (hmem : d ∈ ds) (h : decode_one d = none) :
    decode_documents ds = none := by
  induction ds with
  | nil => cases hmem
  | cons x rest ih =>
    rcases List.mem_cons.mp hmem with rfl | hmem2
    · simp [decode_documents, h]
    · simp only [decode_documents]
      cases hx : decode_one x with
      | none => rfl
      | some v => simp [ih hmem2]

theorem formatHits_relevance {ds : List PyVal} {ms : List Metadata}
    {xs : List ℚ} {h : MemoryHit} (hmem : h ∈ formatHits ds ms xs) :
    h.relevance_score = 1 - h.distance := by
  induction ds generalizing ms xs with
  | nil => simp [formatHits] at hmem
  | cons d rest ih =>
    cases ms with
    | nil => simp [formatHits] at hmem
    | cons m ms2 =>
      cases xs with
      | nil => simp [formatHits] at hmem
      | cons x xs2 =>
        rcases List.mem_cons.mp hmem with rfl | hmem2
        · rfl
        · exact ih hmem2

theorem find?_deleteCollection (db : Client) (n : String) :
    (deleteCollection db n).find? (fun c => c.name == n) = none := by
  apply List.find?_eq_none.mpr
  intro c hc
  have := List.of_mem_filter hc
  simpa using this

/-! ### Concrete instances used by the witnesses -/

/-- A deterministic stand-in for the store's derived embedding. -/
def zeroEmbed : String → List ℚ := fun _ => []

/-- A deterministic embedding provider that always succeeds. -/
def oneEmbed : String → Option (List ℚ) := fun _ => some [1]

/-- A store whose search always returns one record at distance `0`. -/
def oneHitQueryFn : Collection → List ℚ → Nat → PyDict String → QueryReply :=
  fun _ _ _ _ => ⟨[[.str "doc"]], [[[("role", "user")]]], [[0]]⟩

/-- A store whose search returns the empty reply (the reply on an empty
collection). -/
def emptyQueryFn : Collection → List ℚ → Nat → PyDict String → QueryReply :=
  fun _ _ _ _ => ⟨[[]], [[]], [[]]⟩

/-- A collection in the legacy encoding: its single document is the JSON
text `\x7b"k":"v"\x7d`. -/
def legacyCollection : Collection :=
  ⟨"shell_assistant", cosineMeta, ["id1"], [[1]],
   [.str "\x7b\"k\":\"v\"\x7d"], [[("role", "user")]]⟩

/-- A collection in the legacy encoding whose single document is not valid
JSON. -/
def badLegacyCollection : Collection :=
  ⟨"shell_assistant", cosineMeta, ["id1"], [[1]],
   [.str "\x7bbad"], [[("role", "user")]]⟩

def recentMeta1 : Metadata :=
  [("role", "user"), ("timestamp", "2024-01-01T00:00:00"), ("type", "text")]

def recentMeta2 : Metadata :=
  [("role", "user"), ("timestamp", "2024-01-02T00:00:00"), ("type", "text")]

def recentMeta3 : Metadata :=
  [("role", "user"), ("timestamp", "2024-01-03T00:00:00"), ("type", "text")]

/-- Three text memories with strictly increasing timestamps T1 < T2 < T3,
in insertion order. -/
def recentExampleCollection : Collection :=
  ⟨"shell_assistant", cosineMeta, ["id1", "id2", "id3"], [[1], [2], [3]],
   [.str "m1", .str "m2", .str "m3"], [recentMeta1, recentMeta2, recentMeta3]⟩

/-! ### Claim C1 -/

/-- C1 claims that records survive a restart and that `VectorMemory.__init__`
deletes and recreates the collection only on an incompatible configuration.
The code refutes this: the constructor unconditionally attempts
`delete_collection` (with the exception swallowed) before
`get_or_create_collection`, so whatever the prior client state — in
particular an existing collection with unchanged configuration and
records — the collection an instance starts with is always empty, and
`_migrate_if_needed` can never see data.  This theorem evaluates the
constructor on an arbitrary prior state. -/
theorem claim_C1_init_always_empties (autoEmbed : String → List ℚ)
    (db : Client) (n : String) :
    (vector_memory_init autoEmbed db n).2.1 = emptyCollection n ∧
    (vector_memory_init autoEmbed db n).2.2 = .ok () := by
  simp [vector_memory_init, getOrCreateCollection, find?_deleteCollection,
    createCollection, migrate_if_needed, emptyCollection]

/-! ### Claim C2 -/

/-- C2 describes the migration the spec intends, and the code cannot
perform it: a document passing the `startswith("\x7b")` legacy check
necessarily decodes to a JSON object, not plain text, and the rebuild
passes the decoded objects straight to `collection.add` — after the
destructive `delete_collection`/`create_collection` — where the store's
string validation raises.  Evaluating the code on the legacy collection
whose single document is the JSON text `\x7b"k":"v"\x7d`: migration errors
and leaves behind the freshly created empty collection, so the record's
id, document and metadata are all lost instead of preserved. -/
theorem claim_C2_migration_destroys_legacy_data :
    migrate_if_needed zeroEmbed legacyCollection =
      (emptyCollection "shell_assistant",
        .error "ValueError: expected string documents") ∧
    (migrate_if_needed zeroEmbed legacyCollection).1.ids = [] ∧
    (migrate_if_needed zeroEmbed legacyCollection).1.documents = [] ∧
    (migrate_if_needed zeroEmbed legacyCollection).1.metadatas = [] := by
  exact ⟨rfl, rfl, rfl, rfl⟩

/-! ### Claim C3 -/

/-- C3: on a collection detected as legacy (first document a string
starting with `"\x7b"`) that contains a record whose document cannot be
decoded, `_migrate_if_needed` raises and the collection — ids, documents,
metadatas, everything — is exactly as it was before the call, because the
decoding loop runs to completion before the delete/recreate writes. -/
theorem claim_C3_migration_atomic (autoEmbed : String → List ℚ)
    (c : Collection) (s : String) (d : PyVal)
    (hhead : c.documents.head? = some (PyVal.str s))
    (hleg : pyStartsWith s "\x7b" = true)
    (hmem : d ∈ c.documents) (hbad : decode_one d = none) :
    migrate_if_needed autoEmbed c = (c, .error "json.JSONDecodeError") := by
  have hdec := decode_documents_none_of_mem hmem hbad
  have hne : c.documents.isEmpty = false := by
    cases hd : c.documents
    · rw [hd] at hhead; cases hhead
    · rfl
  simp [migrate_if_needed, hne, hhead, hleg, hdec]

/-- Witness for C3: the legacy collection whose single document is the
invalid JSON text `\x7bbad` is returned unchanged together with the error. -/
theorem claim_C3_witness :
    migrate_if_needed zeroEmbed badLegacyCollection =
      (badLegacyCollection, .error "json.JSONDecodeError") :=
  claim_C3_migration_atomic zeroEmbed badLegacyCollection "\x7bbad"
    (PyVal.str "\x7bbad") rfl rfl (List.mem_singleton_self _) rfl

/-! ### Claim C4 -/

/-- C4: when the embedding provider cannot produce a vector — the
`DASHSCOPE_API_KEY` credential unset (or empty, which Python's truthiness
treats the same) or the upstream call failing — `store_memory` propagates
the error to the caller and inserts nothing: the collection it returns is
the input collection unchanged, because `collection.add` runs only after
`_get_embedding` has returned. -/
theorem claim_C4_store_memory_embed_failure (api_key : Option String)
    (embedFn : String → Option (List ℚ)) (memory_id now : String)
    (c : Collection) (role content : String) (metadata : Option Metadata)
    (hfail : api_key = none ∨ api_key = some "" ∨ embedFn content = none) :
    (store_memory api_key embedFn memory_id now c role content metadata).1
      = c ∧
    ∃ e, (store_memory api_key embedFn memory_id now c role content
      metadata).2 = .error e := by
  have he : ∃ e, get_embedding api_key embedFn content = .error e := by
    rcases hfail with rfl | rfl | h
    · exact ⟨_, rfl⟩
    · exact ⟨_, rfl⟩
    · match api_key with
      | none => exact ⟨_, rfl⟩
      | some k =>
        by_cases hk : k = ""
        · exact ⟨"DASHSCOPE_API_KEY 未设置，请检查环境变量",
            by simp [get_embedding, hk]⟩
        · exact ⟨"OpenRouter embedding failed",
            by simp [get_embedding, hk, h]⟩
  obtain ⟨e, he⟩ := he
  refine ⟨?_, e, ?_⟩ <;> simp [store_memory, he]

/-- Witness for C4: with the credential unset, `store_memory` on a fresh
collection errors and returns the collection unchanged. -/
theorem claim_C4_witness :
    (store_memory none oneEmbed "id1" "2024-01-01T00:00:00"
      (emptyCollection "shell_assistant") "user" "hello" none).1 =
      emptyCollection "shell_assistant" ∧
    ∃ e, (store_memory none oneEmbed "id1" "2024-01-01T00:00:00"
      (emptyCollection "shell_assistant") "user" "hello" none).2 =
      .error e :=
  claim_C4_store_memory_embed_failure none oneEmbed "id1"
    "2024-01-01T00:00:00" (emptyCollection "shell_assistant") "user" "hello"
    none (Or.inl rfl)

/-! ### Claim C5 -/

/-- C5: every result `search_relevant_memories` returns carries
`relevance_score` equal to exactly `1 - distance` of that same result. -/
theorem claim_C5_relevance_score (api_key : Option String)
    (embedFn : String → Option (List ℚ))
    (queryFn : Collection → List ℚ → Nat → PyDict String → QueryReply)
    (c : Collection) (query : String) (top_k : Nat)
    (filter_role filter_type : Option String) (hits : List MemoryHit)
    (h : search_relevant_memories api_key embedFn queryFn c query top_k
      filter_role filter_type = .ok hits) :
    ∀ m ∈ hits, m.relevance_score = 1 - m.distance := by
  unfold search_relevant_memories at h
  cases hge : get_embedding api_key embedFn query with
  | error e => rw [hge] at h; cases h
  | ok qe =>
    rw [hge] at h
    simp only at h
    cases hd : (queryFn c qe top_k
      (build_where filter_role filter_type)).documents with
    | nil =>
      rw [hd] at h
      obtain rfl : ([] : List MemoryHit) = hits := by simpa using h
      intro m hm; cases hm
    | cons d0 drest =>
      rw [hd] at h
      have : formatHits d0
          ((queryFn c qe top_k (build_where filter_role
            filter_type)).metadatas.headD [])
          ((queryFn c qe top_k (build_where filter_role
            filter_type)).distances.headD []) = hits := by
        simpa using h
      intro m hm
      rw [← this] at hm
      exact formatHits_relevance hm

/-- Witness for C5: a search returning one record at distance `0` yields
`relevance_score = 1 - 0`. -/
theorem claim_C5_witness :
    search_relevant_memories (some "k") oneEmbed oneHitQueryFn
      (emptyCollection "shell_assistant") "what" 3 none none =
      .ok [⟨.str "doc", [("role", "user")], 0, 1 - 0⟩] ∧
    MemoryHit.relevance_score ⟨.str "doc", [("role", "user")], 0, 1 - 0⟩ =
      1 - MemoryHit.distance ⟨.str "doc", [("role", "user")], 0, 1 - 0⟩ :=
  ⟨rfl, claim_C5_relevance_score (some "k") oneEmbed oneHitQueryFn
    (emptyCollection "shell_assistant") "what" 3 none none _ rfl _
    (List.mem_singleton_self _)⟩

/-! ### Claim C6 -/

/-- C6 as stated quantifies over every metadata argument, but the caller's
metadata is written over the stamped fields (`\x7b..., **(metadata or \x7d\x7d)\x7d`):
passing `metadata = \x7b"type": "text"\x7d` yields a stored record whose
metadata carries `type = "text"`, not the claimed `type = "code"`. -/
theorem claim_C6_counterexample :
    ((store_code_memory (some "k") oneEmbed "m1" "2024-01-01T00:00:00"
        (emptyCollection "shell_assistant") "user" "print(1)" "a.py"
        "Python" (some [("type", "text")])).1.metadatas.headD []).get?
      "type" = some "text" ∧
    some "text" ≠ some "code" := by
  exact ⟨rfl, by decide⟩

/-- C6, amended: for every call whose embedding succeeds, the stored
record's document is the content followed by the provenance marker
(containing the uppercased language and the file path) — for every
metadata argument; and provided the caller's metadata dict does not
itself bind the keys `type`, `file_path` or `language` (in particular for
an omitted or empty metadata dict), the stored metadata carries
`type = "code"`, the given `file_path` and the given `language`. -/
theorem claim_C6_store_code_memory_amended (api_key : Option String)
    (embedFn : String → Option (List ℚ)) (memory_id now : String)
    (c : Collection) (role content file_path language : String)
    (md : Option Metadata) (e : List ℚ)
    (hemb : get_embedding api_key embedFn
      (content ++ code_marker file_path language) = .ok e) :
    (store_code_memory api_key embedFn memory_id now c role content
      file_path language md).1.documents =
      c.documents ++ [PyVal.str (content ++
        code_marker file_path language)] ∧
    ((md.getD []).get? "type" = none →
      (md.getD []).get? "file_path" = none →
      (md.getD []).get? "language" = none →
      ∃ m,
        (store_code_memory api_key embedFn memory_id now c role content
          file_path language md).1.metadatas = c.metadatas ++ [m] ∧
        m.get? "type" = some "code" ∧
        m.get? "file_path" = some file_path ∧
        m.get? "language" = some language) := by
  constructor
  · simp [store_code_memory, hemb, Collection.addRecord]
  · intro h1 h2 h3
    refine ⟨PyDict.update
      [("role", role), ("timestamp", now), ("type", "code"),
       ("file_path", file_path), ("language", language)] (md.getD []),
      ?_, ?_, ?_, ?_⟩
    · simp [store_code_memory, hemb, Collection.addRecord]
    · rw [PyDict.update_get?_of_none _ h1]; rfl
    · rw [PyDict.update_get?_of_none _ h2]; rfl
    · rw [PyDict.update_get?_of_none _ h3]; rfl

/-- Witness for C6 (amended): the spec's scenario, with an empty caller
metadata dict. -/
theorem claim_C6_witness :
    (store_code_memory (some "k") oneEmbed "m1" "2024-01-01T00:00:00"
      (emptyCollection "shell_assistant") "user" "print(1)" "a.py"
      "Python" (some [])).1.documents =
      (emptyCollection "shell_assistant").documents ++
        [PyVal.str ("print(1)" ++ code_marker "a.py" "Python")] ∧
    ∃ m,
      (store_code_memory (some "k") oneEmbed "m1" "2024-01-01T00:00:00"
        (emptyCollection "shell_assistant") "user" "print(1)" "a.py"
        "Python" (some [])).1.metadatas =
        (emptyCollection "shell_assistant").metadatas ++ [m] ∧
      m.get? "type" = some "code" ∧
      m.get? "file_path" = some "a.py" ∧
      m.get? "language" = some "Python" :=
  ⟨(claim_C6_store_code_memory_amended (some "k") oneEmbed "m1"
      "2024-01-01T00:00:00" (emptyCollection "shell_assistant") "user"
      "print(1)" "a.py" "Python" (some []) [1] rfl).1,
   (claim_C6_store_code_memory_amended (some "k") oneEmbed "m1"
      "2024-01-01T00:00:00" (emptyCollection "shell_assistant") "user"
      "print(1)" "a.py" "Python" (some []) [1] rfl).2 rfl rfl rfl⟩

/-- `trim_history` leaves a list within the bound unchanged. -/
theorem trim_history_of_not_gt {α : Type} {m : Nat} {h : List α}
    (hle : ¬ h.length > m * 2) : trim_history m h = h := by
  simp [trim_history, hle]

/-! ### Claim C7 -/

/-- C7 as stated is false at `max_history = 0`: the slice
`history[-max_history * 2:]` is `history[-0:]`, which is the whole list,
so a non-empty history stays longer than `2 × 0` after trimming. -/
theorem claim_C7_counterexample :
    trim_history 0 [(0 : Nat)] = [0] ∧
    ¬ ((trim_history 0 [(0 : Nat)]).length ≤ 2 * 0) := by
  exact ⟨rfl, by decide⟩

/-- C7, amended: for every history list and every `max_history ≥ 1`,
trimming is idempotent, the length after trimming never exceeds
`2 × max_history`, the trimmed history is a suffix of the original (the
kept entries are the most recent ones, in their original order), and when
trimming removes entries it keeps exactly `2 × max_history` of them.  (At
`max_history = 0` the length bound fails, by the counterexample.) -/
theorem claim_C7_trim_amended {α : Type} (m : Nat) (h : List α)
    (hm : 1 ≤ m) :
    trim_history m (trim_history m h) = trim_history m h ∧
    (trim_history m h).length ≤ 2 * m ∧
    (trim_history m h) <:+ h ∧
    (h.length > 2 * m → (trim_history m h).length = 2 * m) := by
  have hne : m * 2 ≠ 0 := by omega
  by_cases hlen : h.length > m * 2
  · have htrim : trim_history m h = h.drop (h.length - m * 2) := by
      simp [trim_history, hlen, pySliceLast, hne]
    have hlen2 : (trim_history m h).length = m * 2 := by
      rw [htrim, List.length_drop]; omega
    refine ⟨?_, ?_, ?_, ?_⟩
    · exact trim_history_of_not_gt (by omega)
    · omega
    · rw [htrim]; exact List.drop_suffix _ _
    · intro _; omega
  · have htrim : trim_history m h = h := trim_history_of_not_gt hlen
    refine ⟨?_, ?_, ?_, ?_⟩
    · rw [htrim, htrim]
    · rw [htrim]; omega
    · rw [htrim]
    · intro hgt; omega

/-- Witness for C7 (amended) at `max_history = 1` and a three-entry
history. -/
theorem claim_C7_witness :
    trim_history 1 (trim_history 1 [(0 : Nat), 1, 2]) =
      trim_history 1 [(0 : Nat), 1, 2] ∧
    (trim_history 1 [(0 : Nat), 1, 2]).length ≤ 2 * 1 ∧
    (trim_history 1 [(0 : Nat), 1, 2]) <:+ [0, 1, 2] ∧
    ([(0 : Nat), 1, 2].length > 2 * 1 →
      (trim_history 1 [(0 : Nat), 1, 2]).length = 2 * 1) :=
  claim_C7_trim_amended 1 [0, 1, 2] (by decide)

/-! ### Claim C8 -/

/-- C8: `get_recent_memories` returns the records passing the role/type
filters, newest first by their timestamp metadata, truncated to at most
`limit` entries: the result is sorted by descending timestamp, its length
is at most `limit`, and it is an initial segment of a permutation of the
filtered full scan.  In particular, on three text memories with strictly
increasing timestamps T1 < T2 < T3, `get_recent_memories` with limit 2
returns the T3 record and then the T2 record. -/
theorem claim_C8_get_recent (c : Collection) (limit : Nat)
    (filter_role filter_type : Option String) :
    List.Sorted recentGe
      (get_recent_memories c limit filter_role filter_type) ∧
    (get_recent_memories c limit filter_role filter_type).length ≤ limit ∧
    (∃ rest, (get_recent_memories c limit filter_role filter_type ++
      rest).Perm (recent_entries c filter_role filter_type)) ∧
    get_recent_memories recentExampleCollection 2 none none =
      [⟨.str "m3", recentMeta3, "2024-01-03T00:00:00"⟩,
       ⟨.str "m2", recentMeta2, "2024-01-02T00:00:00"⟩] := by
  refine ⟨?_, ?_, ?_, ?_⟩
  · exact List.Pairwise.sublist (List.take_sublist _ _)
      (List.sorted_insertionSort recentGe _)
  · exact List.length_take_le _ _
  · refine ⟨(List.insertionSort recentGe
      (recent_entries c filter_role filter_type)).drop limit, ?_⟩
    unfold get_recent_memories
    rw [List.take_append_drop]
    exact List.perm_insertionSort recentGe _
  · rfl

/-! ### Claim C9 -/

/-- C9: after `clear_memory` the store is empty — the collection is the
fresh empty collection under the original name with the cosine metric,
`get_memory_stats` reports zero records, a search (whose query reply on
the empty collection is the empty reply, and whose embedding succeeds)
returns the empty sequence — and clearing again is a no-op on the
already-empty store. -/
theorem claim_C9_clear_memory (db : Client) (c : Collection)
    (api_key : Option String) (embedFn : String → Option (List ℚ))
    (queryFn : Collection → List ℚ → Nat → PyDict String → QueryReply)
    (query : String) (top_k : Nat) (fr ft : Option String) (e : List ℚ)
    (hemb : get_embedding api_key embedFn query = .ok e)
    (hq : queryFn (clear_memory db c).2 e top_k (build_where fr ft) =
      ⟨[[]], [[]], [[]]⟩) :
    (clear_memory db c).2 = emptyCollection c.name ∧
    (get_memory_stats (clear_memory db c).2).total_memories = 0 ∧
    search_relevant_memories api_key embedFn queryFn (clear_memory db c).2
      query top_k fr ft = .ok [] ∧
    clear_memory (clear_memory db c).1 (clear_memory db c).2 =
      clear_memory db c ∧
    (clear_memory db c).2.name = c.name ∧
    (clear_memory db c).2.colMeta = cosineMeta := by
  refine ⟨rfl, rfl, ?_, ?_, rfl, rfl⟩
  · simp [search_relevant_memories, hemb, hq, formatHits]
  · simp [clear_memory, deleteCollection, createCollection,
      List.filter_append, List.filter_filter]

/-- Witness for C9 on a concrete store. -/
theorem claim_C9_witness :
    (clear_memory [] (emptyCollection "shell_assistant")).2 =
      emptyCollection "shell_assistant" ∧
    (get_memory_stats
      (clear_memory [] (emptyCollection "shell_assistant")).2).total_memories
      = 0 ∧
    search_relevant_memories (some "k") oneEmbed emptyQueryFn
      (clear_memory [] (emptyCollection "shell_assistant")).2 "q" 3 none
      none = .ok [] ∧
    clear_memory (clear_memory [] (emptyCollection "shell_assistant")).1
      (clear_memory [] (emptyCollection "shell_assistant")).2 =
      clear_memory [] (emptyCollection "shell_assistant") ∧
    (clear_memory [] (emptyCollection "shell_assistant")).2.name =
      (emptyCollection "shell_assistant").name ∧
    (clear_memory [] (emptyCollection "shell_assistant")).2.colMeta =
      cosineMeta :=
  claim_C9_clear_memory [] (emptyCollection "shell_assistant") (some "k")
    oneEmbed emptyQueryFn "q" 3 none none [1] rfl rfl

/-! ### Claim C10 -/

/-- C10: the caller's metadata dict is written over every stamped field:
when it binds `role`, `timestamp` or `type`, the stored record of
`store_memory` and of `store_code_memory` carries the caller's value for
that key in place of the role argument, the generated timestamp, or the
default type. -/
theorem claim_C10_metadata_overrides (api_key : Option String)
    (embedFn : String → Option (List ℚ)) (memory_id now : String)
    (c : Collection) (role content file_path language : String)
    (md : Metadata) (k v : String) (e1 e2 : List ℚ)
    (hk : k = "role" ∨ k = "timestamp" ∨ k = "type")
    (hnd : md.NodupKeys) (hv : md.get? k = some v)
    (hemb1 : get_embedding api_key embedFn content = .ok e1)
    (hemb2 : get_embedding api_key embedFn
      (content ++ code_marker file_path language) = .ok e2) :
    (∃ m, (store_memory api_key embedFn memory_id now c role content
        (some md)).1.metadatas = c.metadatas ++ [m] ∧
      m.get? k = some v) ∧
    (∃ m, (store_code_memory api_key embedFn memory_id now c role content
        file_path language (some md)).1.metadatas = c.metadatas ++ [m] ∧
      m.get? k = some v) := by
  constructor
  · refine ⟨PyDict.update
      [("role", role), ("timestamp", now), ("type", "text")] md, ?_, ?_⟩
    · simp [store_memory, hemb1, Collection.addRecord]
    · exact PyDict.update_get?_of_mem _ hnd hv
  · refine ⟨PyDict.update
      [("role", role), ("timestamp", now), ("type", "code"),
       ("file_path", file_path), ("language", language)] md, ?_, ?_⟩
    · simp [store_code_memory, hemb2, Collection.addRecord]
    · exact PyDict.update_get?_of_mem _ hnd hv

/-- Witness for C10: caller metadata `\x7b"role": "admin"\x7d` overrides the
stamped role in both store operations. -/
theorem claim_C10_witness :
    (∃ m, (store_memory (some "k") oneEmbed "m1" "2024-01-01T00:00:00"
        (emptyCollection "shell_assistant") "user" "hello"
        (some [("role", "admin")])).1.metadatas =
        (emptyCollection "shell_assistant").metadatas ++ [m] ∧
      m.get? "role" = some "admin") ∧
    (∃ m, (store_code_memory (some "k") oneEmbed "m1" "2024-01-01T00:00:00"
        (emptyCollection "shell_assistant") "user" "hello" "a.py" "Python"
        (some [("role", "admin")])).1.metadatas =
        (emptyCollection "shell_assistant").metadatas ++ [m] ∧
      m.get? "role" = some "admin") :=
  claim_C10_metadata_overrides (some "k") oneEmbed "m1"
    "2024-01-01T00:00:00" (emptyCollection "shell_assistant") "user"
    "hello" "a.py" "Python" [("role", "admin")] "role" "admin" [1] [1]
    (Or.inl rfl) (by simp [PyDict.NodupKeys, PyDict.keys]) rfl rfl rfl
